import Mathlib

/-!
Verification of the core of `koji-sane-json-api` (src/koji.rs): identifier
validation (`validate_buildid`), nvr decomposition (`split_nvr`), URL-prefix
derivation (`get_kojipkgs_url_prefix`) and report scraping (`scrape_koji_cli`).

Strings are modelled as `List Char` (`Str`).  Rust functions returning
`anyhow::Result` are modelled with `RunResult`, whose `panic` constructor
records a process abort coming from `.expect(...)` / `.unwrap()` calls in the
source; `error` records an `Err` return, with the error message replaced by a
constructor named after the spec's error-kind taxonomy (section 7 of the spec).
-/

set_option autoImplicit false

abbrev Str := List Char

inductive RunResult (ε : Type) (α : Type) where
  | ok (a : α)
  | error (e : ε)
  | panic (msg : Str)
deriving DecidableEq

/-- Error kinds of `validate_buildid` (spec: `ValidationError`). -/
inductive ValidateErr where
  | emptyIdentifier
  | nonAsciiCharacter (c : Char)
  | invalidLeadingCharacter (c : Char)
deriving DecidableEq

/-- Error kinds of `split_nvr` (spec: `DecompositionError`). -/
inductive SplitErr where
  | missingReleaseSeparator
  | emptyRelease
  | missingVersionSeparator
  | emptyName
  | emptyVersion
deriving DecidableEq

/-- Error kinds of `scrape_koji_cli` (spec: `ScrapeError`).  The source can
never produce the spec's `InvalidArtifactName` / `InvalidArtifactArch`
(`OsStr::to_str` cannot fail on a path built from a `&str`), and build-id
overflow is a panic (`.expect("parse u64")`), not an `Err`, so neither appears
here. -/
inductive ScrapeErr where
  | buildNotFound
  | artifactSectionMissing
  | missingArtifactName
  | missingArtifactArch
  | invalidCanonicalNvr (e : SplitErr)
deriving DecidableEq

/-- `pkg.rfind('-')` of the source, as a character index (the source's byte
index and the character index address the same occurrence of `'-'`, and
`split_at` at that byte boundary yields the same two substrings as
`take`/`drop` at the character index). -/
def rfindDash : Str → Option Nat
  | [] => none
  | c :: cs =>
    match rfindDash cs with
    | some i => some (i + 1)
    | none => if c = '-' then some 0 else none

/-- `s.strip_prefix("-")` of the source. -/
def stripDashHead : Str → Option Str
  | [] => none
  | c :: t => if c = '-' then some t else none

/-- Message of a source `.expect("-")`. -/
def dashMsg : Str := "-".data

/-- `split_nvr` from src/koji.rs: right-to-left decomposition of an nvr
string into (name, version, release). -/
def split_nvr (pkg : Str) : RunResult SplitErr (Str × Str × Str) :=
  match rfindDash pkg with
  | none => .error .missingReleaseSeparator
  | some idx =>
    match stripDashHead (pkg.drop idx) with
    | none => .panic dashMsg
    | some rest =>
      match rfindDash (pkg.take idx) with
      | none => .error .missingVersionSeparator
      | some idx2 =>
        match stripDashHead ((pkg.take idx).drop idx2) with
        | none => .panic dashMsg
        | some version =>
          if (pkg.take idx).take idx2 = [] then .error .emptyName
          else if version = [] then .error .emptyVersion
          else if rest = [] then .error .emptyRelease
          else .ok ((pkg.take idx).take idx2, version, rest)

/-- The `KOJIPKGS_URL` constant of the source. -/
def KOJIPKGS_URL : Str := "https://kojipkgs.fedoraproject.org/packages".data

/-- `get_kojipkgs_url_prefix` from src/koji.rs: on success the result of
interpolating base URL, name, version and release with `/` separators. -/
def get_kojipkgs_url_prefix (buildid : Str) : RunResult SplitErr Str :=
  match split_nvr buildid with
  | .ok (n, v, r) => .ok (KOJIPKGS_URL ++ '/' :: n ++ '/' :: v ++ '/' :: r)
  | .error e => .error e
  | .panic m => .panic m

/-- Rust `char::is_ascii`. -/
def asciiChar (c : Char) : Bool := c.toNat ≤ 127

/-- Rust `char::is_ascii_alphanumeric`. -/
def asciiAlphanum (c : Char) : Bool :=
  (48 ≤ c.toNat && c.toNat ≤ 57) || (65 ≤ c.toNat && c.toNat ≤ 90) ||
    (97 ≤ c.toNat && c.toNat ≤ 122)

/-- `validate_buildid` from src/koji.rs: reject non-ASCII anywhere, then
require a first character that is ASCII alphanumeric (empty input has none). -/
def validate_buildid (s : Str) : RunResult ValidateErr Unit :=
  match s.find? (fun c => ! asciiChar c) with
  | some c => .error (.nonAsciiCharacter c)
  | none =>
    match s with
    | [] => .error .emptyIdentifier
    | c :: _ =>
      if asciiAlphanum c then .ok ()
      else .error (.invalidLeadingCharacter c)

/-- Rust `char::is_whitespace` (the Unicode White_Space code points). -/
def rustIsWhitespace (c : Char) : Bool :=
  c.toNat = 9 || c.toNat = 10 || c.toNat = 11 || c.toNat = 12 || c.toNat = 13 ||
    c.toNat = 32 || c.toNat = 133 || c.toNat = 160 || c.toNat = 5760 ||
    (8192 ≤ c.toNat && c.toNat ≤ 8202) || c.toNat = 8232 || c.toNat = 8233 ||
    c.toNat = 8239 || c.toNat = 8287 || c.toNat = 12288

/-- `line.split_whitespace().next()` of the source: the first
whitespace-delimited token of a line, if any. -/
def firstToken (line : Str) : Option Str :=
  if (line.dropWhile rustIsWhitespace).takeWhile (fun c => ! rustIsWhitespace c) = []
  then none
  else some ((line.dropWhile rustIsWhitespace).takeWhile (fun c => ! rustIsWhitespace c))

/-- Split a string at every occurrence of `sep`; always returns at least one
(possibly empty) segment. -/
def splitOnChar (sep : Char) : Str → List Str
  | [] => [[]]
  | c :: rest =>
    if c = sep then [] :: splitOnChar sep rest
    else
      match splitOnChar sep rest with
      | [] => [[c]]
      | seg :: segs => (c :: seg) :: segs

/-- Strip one trailing carriage return, as Rust `str::lines` does on every
newline-terminated line. -/
def stripTrailCR (l : Str) : Str :=
  if l.getLast? = some '\r' then l.dropLast else l

/-- Helper for `rustLines`: the last segment is the unterminated tail (kept
verbatim, dropped when empty); every earlier segment was `'\n'`-terminated and
loses one trailing `'\r'`. -/
def rustLinesAux : List Str → List Str
  | [] => []
  | [last] => if last = [] then [] else [last]
  | seg :: rest => stripTrailCR seg :: rustLinesAux rest

/-- Rust `str::lines` of the source's `output.lines()`. -/
def rustLines (s : Str) : List Str := rustLinesAux (splitOnChar '\n' s)

/-- A component of a Rust `std::path::Path` (no prefix/root components: the
two queries the source performs yield a filename only from `Normal`
components, so the root is dropped from the component list). -/
inductive PathComp where
  | curDir
  | parentDir
  | normal (s : Str)
deriving DecidableEq

/-- Classify one slash-separated segment in non-leading position: empty and
`"."` segments disappear, `".."` is a parent component. -/
def parseComp (p : Str) : Option PathComp :=
  if p = [] then none
  else if p = ['.'] then none
  else if p = ['.', '.'] then some .parentDir
  else some (.normal p)

/-- Components of `Path::new(t)` (Unix rules): a leading bare `"."` segment
survives as `CurDir`; all other segments go through `parseComp`. -/
def pathComps (t : Str) : List PathComp :=
  (if (splitOnChar '/' t).head? = some ['.'] then [PathComp.curDir] else []) ++
    (splitOnChar '/' t).filterMap parseComp

/-- The name of a component, if it is a `Normal` one. -/
def compName : PathComp → Option Str
  | .normal n => some n
  | _ => none

/-- `Path::new(t).file_name()` of the source. -/
def pathFileName (t : Str) : Option Str :=
  (pathComps t).getLast?.bind compName

/-- `Path::new(t).parent().map(|p| p.file_name()).flatten()` of the source:
the name of the next-to-last component. -/
def pathParentName (t : Str) : Option Str :=
  (pathComps t).dropLast.getLast?.bind compName

/-- Strip a literal off the head of a string (Rust `str::strip_prefix` /
the anchored literal part of the regex). -/
def dropLiteral : Str → Str → Option Str
  | [], rest => some rest
  | _, [] => none
  | p :: ps, c :: cs => if p = c then dropLiteral ps cs else none

/-- Take a non-empty maximal run of characters satisfying `p`, returning the
run and the remainder. -/
def takeWhile1 (p : Char → Bool) (s : Str) : Option (Str × Str) :=
  if s.takeWhile p = [] then none else some (s.takeWhile p, s.dropWhile p)

/-- Expect one specific character at the head of a string. -/
def expectChar (c : Char) : Str → Option Str
  | x :: rest => if x = c then some rest else none
  | [] => none

/-- ASCII decimal digit: the only digits Rust `str::parse::<u64>` accepts. -/
def asciiDigit (c : Char) : Bool := 48 ≤ c.toNat && c.toNat ≤ 57

/-- The code-point ranges of the Unicode general category Nd (decimal digit,
Unicode 14.0): the character set the source regex's Unicode-aware `\d`
matches. -/
def ndRanges : List (Nat × Nat) :=
  [(48, 57), (1632, 1641), (1776, 1785), (1984, 1993), (2406, 2415), (2534, 2543),
   (2662, 2671), (2790, 2799), (2918, 2927), (3046, 3055), (3174, 3183), (3302, 3311),
   (3430, 3439), (3558, 3567), (3664, 3673), (3792, 3801), (3872, 3881), (4160, 4169),
   (4240, 4249), (6112, 6121), (6160, 6169), (6470, 6479), (6608, 6617), (6784, 6793),
   (6800, 6809), (6992, 7001), (7088, 7097), (7232, 7241), (7248, 7257), (42528, 42537),
   (43216, 43225), (43264, 43273), (43472, 43481), (43504, 43513), (43600, 43609),
   (44016, 44025), (65296, 65305), (66720, 66729), (68912, 68921), (69734, 69743),
   (69872, 69881), (69942, 69951), (70096, 70105), (70384, 70393), (70736, 70745),
   (70864, 70873), (71248, 71257), (71360, 71369), (71472, 71481), (71904, 71913),
   (72016, 72025), (72784, 72793), (73040, 73049), (73120, 73129), (92768, 92777),
   (92864, 92873), (93008, 93017), (120782, 120831), (123200, 123209), (123632, 123641),
   (125264, 125273), (130032, 130041)]

/-- The regex `\d` of the source: a Unicode Nd digit (the regex crate's `\d`
is Unicode-aware by default, so e.g. `'٥'` matches although it can never
parse as `u64`). -/
def unicodeDigit (c : Char) : Bool :=
  ndRanges.any (fun p => p.1 ≤ c.toNat && c.toNat ≤ p.2)

/-- The literal `"BUILD:"`. -/
def buildTag : Str := "BUILD:".data

/-- The literal `"RPMs:"`. -/
def rpmsTag : Str := "RPMs:".data

/-- `line.starts_with("RPMs:")` of the source. -/
def startsWithRpms (line : Str) : Bool := (dropLiteral rpmsTag line).isSome

/-- `BUILDRE.captures(line)` of the source, for the anchored regex
`^BUILD: +([^ ]+) +\[(\d+)\]`: on a match, the pair (captured nvr token,
captured digit run), with `\d` the Unicode Nd class.  Each `+`-quantified
class here excludes the character that must follow it (`' '` is not in
`[^ ]`, `'['` is not `' '`, `']'` is not an Nd digit), so maximal munch is
exact and no backtracking arises. -/
def matchBuildLine (line : Str) : Option (Str × Str) :=
  (dropLiteral buildTag line).bind fun r1 =>
  (takeWhile1 (fun c => c == ' ') r1).bind fun sp1 =>
  (takeWhile1 (fun c => ! (c == ' ')) sp1.2).bind fun tk =>
  (takeWhile1 (fun c => c == ' ') tk.2).bind fun sp2 =>
  (expectChar '[' sp2.2).bind fun r5 =>
  (takeWhile1 unicodeDigit r5).bind fun ds =>
  (expectChar ']' ds.2).bind fun _ =>
  some (tk.1, ds.1)

/-- Numeric value of an ASCII digit run (most significant first). -/
def digitsToNat : Nat → Str → Nat
  | acc, [] => acc
  | acc, c :: cs => digitsToNat (acc * 10 + (c.toNat - 48)) cs

/-- `str::parse::<u64>` of the source on a captured digit run: the value when
the run is non-empty, all-ASCII (`parse` rejects any non-ASCII Nd digit the
regex may have captured) and fits in 64 unsigned bits; failure otherwise. -/
def parseU64 (ds : Str) : Option Nat :=
  if ds = [] then none
  else if ds.all asciiDigit then
    if digitsToNat 0 ds < 2 ^ 64 then some (digitsToNat 0 ds) else none
  else none

/-- The `rpms: BTreeMap<String, Vec<String>>` field: an association list kept
sorted by key under `rpmsInsert`, mirroring the ordered tree map. -/
abbrev RpmsMap := List (Str × List Str)

/-- Lexicographic (code-point, equivalently UTF-8 byte) order on strings:
the `Ord` instance `BTreeMap<String, _>` sorts its keys by. -/
def strLt : Str → Str → Bool
  | [], [] => false
  | [], _ :: _ => true
  | _ :: _, [] => false
  | a :: as, b :: bs =>
    if a.toNat < b.toNat then true
    else if b.toNat < a.toNat then false
    else strLt as bs

/-- `r.rpms.entry(arch).or_default().push(name)` of the source: append `name`
to the sequence at key `arch`, inserting the key at its sorted position when
absent. -/
def rpmsInsert (arch : Str) (nm : Str) : RpmsMap → RpmsMap
  | [] => [(arch, [nm])]
  | (k, v) :: rest =>
    if arch = k then (k, v ++ [nm]) :: rest
    else if strLt arch k then (arch, [nm]) :: (k, v) :: rest
    else (k, v) :: rpmsInsert arch nm rest

/-- `BTreeMap::get` on the model. -/
def rpmsLookup (arch : Str) : RpmsMap → Option (List Str)
  | [] => none
  | (k, v) :: rest => if arch = k then some v else rpmsLookup arch rest

/-- The `KojiBuildInfo` struct of the source (`kojipkgs_url_prefix` models the
source field `kojipkgs_url_` followed by `prefix`). -/
structure KojiBuildInfo where
  nvr : Str
  id : Nat
  kojipkgs_url_prefix : Str
  rpms : RpmsMap
deriving DecidableEq

/-- `Default::default()` for the struct. -/
def kojiDefault : KojiBuildInfo := { nvr := [], id := 0, kojipkgs_url_prefix := [], rpms := [] }

/-- Message of the source `.expect("split")`. -/
def splitMsg : Str := "split".data

/-- Message of the source `.expect("parse u64")`. -/
def parseU64Msg : Str := "parse u64".data

/-- One iteration of the line loop of `scrape_koji_cli`. -/
def scrapeLine (r : KojiBuildInfo) (in_rpms : Bool) (line : Str) :
    RunResult ScrapeErr (KojiBuildInfo × Bool) :=
  if in_rpms then
    match firstToken line with
    | none => .panic splitMsg
    | some tok =>
      match pathFileName tok with
      | none => .error .missingArtifactName
      | some nm =>
        match pathParentName tok with
        | none => .error .missingArtifactArch
        | some arch => .ok ({ r with rpms := rpmsInsert arch nm r.rpms }, in_rpms)
  else
    match matchBuildLine line with
    | some (tok, ds) =>
      match parseU64 ds with
      | none => .panic parseU64Msg
      | some n => .ok ({ r with nvr := tok, id := n }, in_rpms)
    | none =>
      if startsWithRpms line then .ok (r, true)
      else .ok (r, in_rpms)

/-- The line loop of `scrape_koji_cli`, threading the record and the
`in_rpms` flag. -/
def scrapeLines (r : KojiBuildInfo) (b : Bool) : List Str → RunResult ScrapeErr (KojiBuildInfo × Bool)
  | [] => .ok (r, b)
  | l :: ls =>
    match scrapeLine r b l with
    | .ok (r2, b2) => scrapeLines r2 b2 ls
    | .error e => .error e
    | .panic m => .panic m

/-- `scrape_koji_cli` from src/koji.rs. -/
def scrape_koji_cli (output : Str) : RunResult ScrapeErr KojiBuildInfo :=
  match scrapeLines kojiDefault false (rustLines output) with
  | .error e => .error e
  | .panic m => .panic m
  | .ok (r, in_rpms) =>
    if r.nvr = [] then .error .buildNotFound
    else if in_rpms = false then .error .artifactSectionMissing
    else
      match get_kojipkgs_url_prefix r.nvr with
      | .ok p => .ok { r with kojipkgs_url_prefix := p }
      | .error e => .error (.invalidCanonicalNvr e)
      | .panic m => .panic m

/-! ### Concrete fixtures and auxiliary predicates used in the theorem statements -/

/-- Decidable form of "if this line matches the `BUILD:` pattern, its
captured digit run parses as `u64`" (all-ASCII digits, value in range) —
i.e. the line does not drive `str::parse(..).expect("parse u64")` into a
panic. -/
def buildIdFitsB (l : Str) : Bool :=
  match matchBuildLine l with
  | none => true
  | some p => (parseU64 p.2).isSome

/-- The key list of the rpms map. -/
def rpmsKeys (m : RpmsMap) : List Str := m.map Prod.fst

/-- The record produced by scraping a report with a `BUILD:` line and an
`RPMs:` header but no artifact lines. -/
def c3rec : KojiBuildInfo :=
  { nvr := "a-b-c".data, id := 1,
    kojipkgs_url_prefix := "https://kojipkgs.fedoraproject.org/packages/a/b/c".data,
    rpms := [] }

/-- A record used to witness C8's scrape conjunct. -/
def c8rec : KojiBuildInfo :=
  { nvr := "q-w-e".data, id := 3,
    kojipkgs_url_prefix := "https://kojipkgs.fedoraproject.org/packages/q/w/e".data,
    rpms := [] }

/-- Modelled from the spec: the example koji report fixture
(`example-koji-output.txt`, consumed by the source's tests through
`include_str!`) is not among the repository's source files, so this report is
reconstructed from the spec's scenarios: it contains the line
`BUILD: rpm-ostree-2020.10-1.fc34 [1657648]`, an `RPMs:` header, and artifact
paths `.../<arch>/<filename>` covering seven architectures, with
`rpm-ostree-2020.10-1.fc34.src.rpm` the first `src` entry and
`rpm-ostree-libs-debuginfo-2020.10-1.fc34.x86_64.rpm` the third `x86_64`
entry. -/
def exampleKojiOutput : Str :=
  ("BUILD: rpm-ostree-2020.10-1.fc34 [1657648]\n" ++
   "State: COMPLETE\n" ++
   "Built by: walters\n" ++
   "Volume: DEFAULT\n" ++
   "Task: 60601982 build (f34, /rpms/rpm-ostree.git:main)\n" ++
   "Finished: Fri, 22 Jan 2021 01:15:55 UTC\n" ++
   "Tags: f34-updates-candidate\n" ++
   "RPMs:\n" ++
   "/mnt/koji/packages/rpm-ostree/2020.10/1.fc34/src/rpm-ostree-2020.10-1.fc34.src.rpm\n" ++
   "/mnt/koji/packages/rpm-ostree/2020.10/1.fc34/x86_64/rpm-ostree-2020.10-1.fc34.x86_64.rpm\n" ++
   "/mnt/koji/packages/rpm-ostree/2020.10/1.fc34/x86_64/rpm-ostree-libs-2020.10-1.fc34.x86_64.rpm\n" ++
   "/mnt/koji/packages/rpm-ostree/2020.10/1.fc34/x86_64/rpm-ostree-libs-debuginfo-2020.10-1.fc34.x86_64.rpm\n" ++
   "/mnt/koji/packages/rpm-ostree/2020.10/1.fc34/aarch64/rpm-ostree-2020.10-1.fc34.aarch64.rpm\n" ++
   "/mnt/koji/packages/rpm-ostree/2020.10/1.fc34/aarch64/rpm-ostree-libs-2020.10-1.fc34.aarch64.rpm\n" ++
   "/mnt/koji/packages/rpm-ostree/2020.10/1.fc34/armv7hl/rpm-ostree-2020.10-1.fc34.armv7hl.rpm\n" ++
   "/mnt/koji/packages/rpm-ostree/2020.10/1.fc34/i686/rpm-ostree-2020.10-1.fc34.i686.rpm\n" ++
   "/mnt/koji/packages/rpm-ostree/2020.10/1.fc34/ppc64le/rpm-ostree-2020.10-1.fc34.ppc64le.rpm\n" ++
   "/mnt/koji/packages/rpm-ostree/2020.10/1.fc34/s390x/rpm-ostree-2020.10-1.fc34.s390x.rpm\n").data

/-- The record the modelled example report scrapes to. -/
def exampleKojiRecord : KojiBuildInfo :=
  { nvr := "rpm-ostree-2020.10-1.fc34".data,
    id := 1657648,
    kojipkgs_url_prefix :=
      "https://kojipkgs.fedoraproject.org/packages/rpm-ostree/2020.10/1.fc34".data,
    rpms :=
      [("aarch64".data,
         ["rpm-ostree-2020.10-1.fc34.aarch64.rpm".data,
          "rpm-ostree-libs-2020.10-1.fc34.aarch64.rpm".data]),
       ("armv7hl".data, ["rpm-ostree-2020.10-1.fc34.armv7hl.rpm".data]),
       ("i686".data, ["rpm-ostree-2020.10-1.fc34.i686.rpm".data]),
       ("ppc64le".data, ["rpm-ostree-2020.10-1.fc34.ppc64le.rpm".data]),
       ("s390x".data, ["rpm-ostree-2020.10-1.fc34.s390x.rpm".data]),
       ("src".data, ["rpm-ostree-2020.10-1.fc34.src.rpm".data]),
       ("x86_64".data,
         ["rpm-ostree-2020.10-1.fc34.x86_64.rpm".data,
          "rpm-ostree-libs-2020.10-1.fc34.x86_64.rpm".data,
          "rpm-ostree-libs-debuginfo-2020.10-1.fc34.x86_64.rpm".data])] }

/-! ### Lemmas about `rfindDash` -/

theorem rfindDash_eq_none (s : Str) : rfindDash s = none ↔ '-' ∉ s := by
  induction s with
  | nil => simp [rfindDash]
  | cons c cs ih =>
    simp only [rfindDash]
    cases h : rfindDash cs with
    | some i =>
      have hmem : '-' ∈ cs := by
        by_contra hx
        rw [ih.mpr hx] at h
        exact Option.noConfusion h
      simp [List.mem_cons, hmem]
    | none =>
      have hmem : '-' ∉ cs := ih.mp h
      by_cases hc : c = '-'
      · subst hc; simp
      · simp [List.mem_cons, hmem, hc, Ne.symm hc]

theorem rfindDash_append (pre suf : Str) (h : '-' ∉ suf) :
    rfindDash (pre ++ '-' :: suf) = some pre.length := by
  induction pre with
  | nil => simp [rfindDash, (rfindDash_eq_none suf).mpr h]
  | cons c pre ih => simp [rfindDash, ih]

theorem rfindDash_some (s : Str) (i : Nat) (h : rfindDash s = some i) :
    ∃ pre suf, s = pre ++ '-' :: suf ∧ pre.length = i ∧ '-' ∉ suf := by
  induction s generalizing i with
  | nil => simp [rfindDash] at h
  | cons c cs ih =>
    simp only [rfindDash] at h
    cases hcs : rfindDash cs with
    | some j =>
      rw [hcs] at h
      obtain ⟨pre, suf, hs, hl, hn⟩ := ih j hcs
      injection h with h1
      refine ⟨c :: pre, suf, by simp [hs], ?_, hn⟩
      simp [List.length_cons, hl]
      omega
    | none =>
      rw [hcs] at h
      by_cases hc : c = '-'
      · subst hc
        simp only [if_pos rfl] at h
        refine ⟨[], cs, rfl, ?_, (rfindDash_eq_none cs).mp hcs⟩
        simpa using h
      · simp [hc] at h

/-! ### Claim C4 -/

/-- Claim C4 counterexample: on `"foo-"` the source fails with the
missing-version-separator error, not with the empty-release error the claim
predicts, because `split_nvr` searches `pkgver` for `'-'` before it ever
checks `rest` for emptiness. -/
theorem split_nvr_foo_dash_counterexample :
    split_nvr ("foo-".data) = .error .missingVersionSeparator ∧
      ¬ split_nvr ("foo-".data) = .error .emptyRelease := by decide

/-- Claim C4 (amended): `split_nvr` fails with `missingReleaseSeparator` on
any dash-free string; but the step-3 search for the version separator runs
before the empty-release check, so a string that is dash-free before a single
trailing `'-'` (such as `"foo-"`) fails with `missingVersionSeparator`, and
`emptyRelease` surfaces only once name and version parsed non-empty, as on
`"a-b-"`. -/
theorem split_nvr_error_order :
    (∀ s : Str, '-' ∉ s → split_nvr s = .error .missingReleaseSeparator) ∧
    (∀ t : Str, '-' ∉ t → split_nvr (t ++ '-' :: []) = .error .missingVersionSeparator) ∧
    split_nvr ("a-b-".data) = .error .emptyRelease := by
  refine ⟨?_, ?_, by decide⟩
  · intro s h
    simp [split_nvr, (rfindDash_eq_none s).mpr h]
  · intro t h
    have h1 : rfindDash (t ++ '-' :: ([] : Str)) = some t.length := rfindDash_append t [] (by simp)
    have h2 : rfindDash t = none := (rfindDash_eq_none t).mpr h
    simp [split_nvr, h1, List.take_left, List.drop_left, stripDashHead, h2]

/-- Witness for the amended C4. -/
theorem split_nvr_error_order_witness :
    split_nvr ("foo".data) = .error .missingReleaseSeparator ∧
      split_nvr ("bar".data ++ '-' :: []) = .error .missingVersionSeparator :=
  ⟨split_nvr_error_order.1 ("foo".data) (by decide),
   split_nvr_error_order.2.1 ("bar".data) (by decide)⟩

/-! ### Claim C5 -/

/-- Claim C5: for non-empty components whose version and release contain no
`'-'` (so the rightmost-split result is unchanged), `split_nvr` recovers the
three components of `name ++ "-" ++ version ++ "-" ++ release` exactly; and
any successful decomposition concatenates back, with the two separators
re-inserted, to the input string. -/
theorem split_nvr_round_trip :
    (∀ n v r : Str, n ≠ [] → v ≠ [] → r ≠ [] → '-' ∉ v → '-' ∉ r →
      split_nvr (n ++ '-' :: v ++ '-' :: r) = .ok (n, v, r)) ∧
    (∀ s n v r : Str, split_nvr s = .ok (n, v, r) → n ++ '-' :: v ++ '-' :: r = s) := by
  constructor
  · intro n v r hn hv hr hdv hdr
    have h1 : rfindDash (n ++ '-' :: v ++ '-' :: r) = some (n ++ '-' :: v).length :=
      rfindDash_append (n ++ '-' :: v) r hdr
    have h2 : rfindDash (n ++ '-' :: v) = some n.length := rfindDash_append n v hdv
    have hd1 : (n ++ '-' :: v ++ '-' :: r).drop (n ++ '-' :: v).length = '-' :: r :=
      List.drop_left _ _
    have ht1 : (n ++ '-' :: v ++ '-' :: r).take (n ++ '-' :: v).length = n ++ '-' :: v :=
      List.take_left _ _
    have hd2 : (n ++ '-' :: v).drop n.length = '-' :: v := List.drop_left _ _
    have ht2 : (n ++ '-' :: v).take n.length = n := List.take_left _ _
    simp only [split_nvr, h1, hd1, ht1, h2, hd2, ht2, stripDashHead, hn, hv, hr,
      eq_self_iff_true, ite_true, ite_false]
  · intro s n v r h
    cases hrf : rfindDash s with
    | none => simp [split_nvr, hrf] at h
    | some i =>
      obtain ⟨pre, suf, hs, hl, hnsuf⟩ := rfindDash_some s i hrf
      subst hs
      subst hl
      simp only [split_nvr, rfindDash_append pre suf hnsuf, List.take_left, List.drop_left,
        stripDashHead, eq_self_iff_true, ite_true] at h
      cases hrp : rfindDash pre with
      | none => simp [hrp] at h
      | some j =>
        obtain ⟨p2, s2, hp, hl2, hn2⟩ := rfindDash_some pre j hrp
        subst hp
        subst hl2
        simp only [rfindDash_append p2 s2 hn2, List.take_left, List.drop_left,
          stripDashHead, eq_self_iff_true, ite_true] at h
        split at h
        · exact absurd h (by simp)
        · split at h
          · exact absurd h (by simp)
          · split at h
            · exact absurd h (by simp)
            · rw [RunResult.ok.injEq, Prod.mk.injEq, Prod.mk.injEq] at h
              obtain ⟨e1, e2, e3⟩ := h
              subst e1
              subst e2
              subst e3
              rfl

/-- Witness for C5. -/
theorem split_nvr_round_trip_witness :
    split_nvr ("a".data ++ '-' :: "b".data ++ '-' :: "c".data) =
        .ok ("a".data, "b".data, "c".data) ∧
      "a".data ++ '-' :: "b".data ++ '-' :: "c".data = "a-b-c".data :=
  ⟨split_nvr_round_trip.1 ("a".data) ("b".data) ("c".data) (by decide) (by decide)
      (by decide) (by decide) (by decide),
   split_nvr_round_trip.2 ("a-b-c".data) ("a".data) ("b".data) ("c".data) (by decide)⟩

/-! ### Claim C6 -/

/-- Claim C6: `validate_buildid` accepts every non-empty all-ASCII string
whose first character is ASCII alphanumeric, rejects the empty string as
`emptyIdentifier`, rejects any string holding a non-ASCII character as
`nonAsciiCharacter` (reporting an offending character), and rejects an
all-ASCII string with a non-alphanumeric leading character as
`invalidLeadingCharacter`; no other character is restricted. -/
theorem validate_buildid_spec :
    (∀ c : Char, ∀ cs : Str, (∀ x ∈ c :: cs, asciiChar x = true) → asciiAlphanum c = true →
      validate_buildid (c :: cs) = .ok ()) ∧
    validate_buildid [] = .error .emptyIdentifier ∧
    (∀ s : Str, (∃ x ∈ s, asciiChar x = false) →
      ∃ x ∈ s, asciiChar x = false ∧ validate_buildid s = .error (.nonAsciiCharacter x)) ∧
    (∀ c : Char, ∀ cs : Str, (∀ x ∈ c :: cs, asciiChar x = true) → asciiAlphanum c = false →
      validate_buildid (c :: cs) = .error (.invalidLeadingCharacter c)) := by
  refine ⟨?_, by decide, ?_, ?_⟩
  · intro c cs hall ha
    have hf : (c :: cs).find? (fun x => ! asciiChar x) = none :=
      List.find?_eq_none.mpr (fun x hx => by simp [hall x hx])
    simp only [validate_buildid, hf, ha, ite_true]
  · intro s hex
    have hsome : (s.find? (fun x => ! asciiChar x)).isSome := by
      rw [List.find?_isSome]
      obtain ⟨x, hx, hxa⟩ := hex
      exact ⟨x, hx, by simp [hxa]⟩
    obtain ⟨y, hy⟩ := Option.isSome_iff_exists.mp hsome
    refine ⟨y, List.mem_of_find?_eq_some hy, ?_, ?_⟩
    · have := List.find?_some hy
      simpa using this
    · simp only [validate_buildid, hy]
  · intro c cs hall ha
    have hf : (c :: cs).find? (fun x => ! asciiChar x) = none :=
      List.find?_eq_none.mpr (fun x hx => by simp [hall x hx])
    simp only [validate_buildid, hf, ha, Bool.false_eq_true, ite_false]

/-- Witness for C6. -/
theorem validate_buildid_spec_witness :
    validate_buildid ('a' :: []) = .ok () ∧
      validate_buildid ('-' :: "foo".data) = .error (.invalidLeadingCharacter '-') ∧
      (∃ x ∈ ("é".data : Str), asciiChar x = false ∧
        validate_buildid ("é".data) = .error (.nonAsciiCharacter x)) :=
  ⟨validate_buildid_spec.1 'a' [] (by decide) (by decide),
   validate_buildid_spec.2.2.2 '-' ("foo".data) (by decide) (by decide),
   validate_buildid_spec.2.2.1 ("é".data) (by decide)⟩

/-! ### Claim C3 -/

/-- Claim C3 counterexample: a report with a valid `BUILD:` line and an
`RPMs:` header but zero artifact lines after it scrapes SUCCESSFULLY and its
artifacts-by-architecture map is empty, contrary to the claimed invariant. -/
theorem scrape_empty_map_counterexample :
    scrape_koji_cli ("BUILD: a-b-c [1]\nRPMs:".data) = .ok c3rec ∧ c3rec.rpms = [] := by
  exact ⟨by decide, rfl⟩

/-- Claim C3 (amended): success only requires that the `BUILD:` line parsed,
that the `RPMs:` header appeared and that the canonical nvr decomposed; a
report with the header but zero artifact lines yields a success whose
artifacts map is empty. -/
theorem scrape_rpms_header_only_success :
    scrape_koji_cli ("BUILD: d-e-f [2]\nRPMs:\n".data) =
      .ok { nvr := "d-e-f".data, id := 2,
            kojipkgs_url_prefix := "https://kojipkgs.fedoraproject.org/packages/d/e/f".data,
            rpms := [] } := by decide

/-! ### Claims C1 and C2: the panics -/

/-- Claim C1: `scrape_koji_cli` is NOT total-and-explicit: it panics (process
abort via `.expect("split")`) on a report whose artifact section contains an
all-whitespace line, and panics (via `.expect("parse u64")`) when the
`BUILD:` digit run exceeds `u64`. -/
theorem scrape_panics :
    scrape_koji_cli ("BUILD: g-h-i [1]\nRPMs:\n \n".data) = .panic splitMsg ∧
      scrape_koji_cli ("BUILD: g-h-i [99999999999999999999]\n".data) = .panic parseU64Msg := by
  decide

/-- Claim C2: on a `BUILD:` line whose bracketed digit run does not fit in an
unsigned 64-bit integer the source panics via `.expect("parse u64")` instead
of returning the numeric-parse error the spec promises. -/
theorem scrape_build_id_overflow_panics :
    scrape_koji_cli ("BUILD: rpm-ostree-2020.10-1.fc34 [18446744073709551616]\nRPMs:".data) =
      .panic parseU64Msg := by decide

/-! ### Claim C7 counterexample -/

/-- Claim C7 counterexample: the report `"RPMs:\nfoo"` has no line matching
the `BUILD:` pattern, yet scraping fails with `missingArtifactArch` (the
artifact line `"foo"` has no parent directory), not with `buildNotFound` as
the claim demands for every such report. -/
theorem scrape_no_build_not_buildNotFound :
    scrape_koji_cli ("RPMs:\nfoo".data) = .error .missingArtifactArch ∧
      ¬ scrape_koji_cli ("RPMs:\nfoo".data) = .error .buildNotFound := by decide

/-! ### Claim C8 -/

/-- Claim C8: `get_kojipkgs_url_prefix` returns, on decomposition success,
the base URL and the three components joined by `/`, and propagates the
decomposition error otherwise; every successful scrape's stored URL prefix is
exactly the successful derivation from its canonical nvr (a decomposition
failure is never recovered from), and a report whose canonical nvr has no
dash fails the whole scrape with the wrapped decomposition error. -/
theorem url_prefix_spec :
    (∀ s n v r : Str, split_nvr s = .ok (n, v, r) →
      get_kojipkgs_url_prefix s = .ok (KOJIPKGS_URL ++ '/' :: n ++ '/' :: v ++ '/' :: r)) ∧
    (∀ s : Str, ∀ e : SplitErr, split_nvr s = .error e →
      get_kojipkgs_url_prefix s = .error e) ∧
    (∀ output : Str, ∀ rec : KojiBuildInfo, scrape_koji_cli output = .ok rec →
      get_kojipkgs_url_prefix rec.nvr = .ok rec.kojipkgs_url_prefix) ∧
    scrape_koji_cli ("BUILD: ab [1]\nRPMs:".data) =
      .error (.invalidCanonicalNvr .missingReleaseSeparator) := by
  refine ⟨?_, ?_, ?_, by decide⟩
  · intro s n v r h
    unfold get_kojipkgs_url_prefix
    rw [h]
  · intro s e h
    unfold get_kojipkgs_url_prefix
    rw [h]
  · intro output rec h
    unfold scrape_koji_cli at h
    split at h
    · exact absurd h (by simp)
    · exact absurd h (by simp)
    · split at h
      · exact absurd h (by simp)
      · split at h
        · exact absurd h (by simp)
        · split at h
          · rename_i r0 b hok p heq
            rw [RunResult.ok.injEq] at h
            subst h
            simpa using heq
          · exact absurd h (by simp)
          · exact absurd h (by simp)

/-- Witness for C8. -/
theorem url_prefix_spec_witness :
    get_kojipkgs_url_prefix ("a-b-c".data) =
        .ok (KOJIPKGS_URL ++ '/' :: "a".data ++ '/' :: "b".data ++ '/' :: "c".data) ∧
      get_kojipkgs_url_prefix ("x".data) = .error .missingReleaseSeparator ∧
      get_kojipkgs_url_prefix c8rec.nvr = .ok c8rec.kojipkgs_url_prefix :=
  ⟨url_prefix_spec.1 ("a-b-c".data) ("a".data) ("b".data) ("c".data) (by decide),
   url_prefix_spec.2.1 ("x".data) .missingReleaseSeparator (by decide),
   url_prefix_spec.2.2.1 ("BUILD: q-w-e [3]\nRPMs:".data) c8rec (by decide)⟩

/-! ### Claim C7 (amended): lemmas on the line loop -/

theorem takeWhile1_fst_ne_nil (p : Char → Bool) (s : Str) (u : Str × Str)
    (h : takeWhile1 p s = some u) : u.1 ≠ [] := by
  unfold takeWhile1 at h
  split at h
  · simp at h
  · rename_i hne
    injection h with h'
    subst h'
    simpa using hne

theorem matchBuildLine_some (l t d : Str) (h : matchBuildLine l = some (t, d)) :
    t ≠ [] ∧ d ≠ [] := by
  unfold matchBuildLine at h
  rw [Option.bind_eq_some] at h
  obtain ⟨r1, _, h⟩ := h
  rw [Option.bind_eq_some] at h
  obtain ⟨sp1, _, h⟩ := h
  rw [Option.bind_eq_some] at h
  obtain ⟨tk, htk, h⟩ := h
  rw [Option.bind_eq_some] at h
  obtain ⟨sp2, _, h⟩ := h
  rw [Option.bind_eq_some] at h
  obtain ⟨r5, _, h⟩ := h
  rw [Option.bind_eq_some] at h
  obtain ⟨ds, hds, h⟩ := h
  rw [Option.bind_eq_some] at h
  obtain ⟨r7, _, h⟩ := h
  injection h with h'
  rw [Prod.mk.injEq] at h'
  obtain ⟨e1, e2⟩ := h'
  subst e1
  subst e2
  exact ⟨takeWhile1_fst_ne_nil _ _ _ htk, takeWhile1_fst_ne_nil _ _ _ hds⟩

theorem scrapeLines_ignored (ls : List Str) (r : KojiBuildInfo)
    (h : ∀ l ∈ ls, matchBuildLine l = none ∧ startsWithRpms l = false) :
    scrapeLines r false ls = .ok (r, false) := by
  induction ls with
  | nil => rfl
  | cons l ls ih =>
    obtain ⟨hm, hsw⟩ := h l (List.mem_cons_self l ls)
    have step : scrapeLine r false l = .ok (r, false) := by
      simp only [scrapeLine, Bool.false_eq_true, ite_false, hm, hsw]
    simp only [scrapeLines, step]
    exact ih (fun x hx => h x (List.mem_cons_of_mem l hx))

theorem scrapeLines_no_rpms (ls : List Str) (r : KojiBuildInfo)
    (hsw : ∀ l ∈ ls, startsWithRpms l = false)
    (hfit : ∀ l ∈ ls, buildIdFitsB l = true) :
    ∃ r2 : KojiBuildInfo, scrapeLines r false ls = .ok (r2, false) ∧
      ((∃ l ∈ ls, matchBuildLine l ≠ none) → r2.nvr ≠ []) ∧
      ((∀ l ∈ ls, matchBuildLine l = none) → r2 = r) := by
  induction ls generalizing r with
  | nil => exact ⟨r, rfl, by simp, fun _ => rfl⟩
  | cons l ls ih =>
    have hswl := hsw l (List.mem_cons_self l ls)
    have hsw' := fun x hx => hsw x (List.mem_cons_of_mem l hx)
    have hfit' := fun x hx => hfit x (List.mem_cons_of_mem l hx)
    cases hm : matchBuildLine l with
    | none =>
      have step : scrapeLine r false l = .ok (r, false) := by
        simp only [scrapeLine, Bool.false_eq_true, ite_false, hm, hswl]
      obtain ⟨r2, hrun, hne, hid⟩ := ih r hsw' hfit'
      refine ⟨r2, ?_, ?_, ?_⟩
      · simp only [scrapeLines, step]
        exact hrun
      · intro hex
        obtain ⟨x, hx, hxne⟩ := hex
        rcases List.mem_cons.mp hx with h1 | h1
        · exact absurd hm (h1 ▸ hxne)
        · exact hne ⟨x, h1, hxne⟩
      · intro hall
        exact hid (fun x hx => hall x (List.mem_cons_of_mem l hx))
    | some td =>
      obtain ⟨t, d⟩ := td
      have htne := (matchBuildLine_some l t d hm).1
      have hps : (parseU64 d).isSome = true := by
        have hb := hfit l (List.mem_cons_self l ls)
        unfold buildIdFitsB at hb
        rw [hm] at hb
        simpa using hb
      obtain ⟨nval, hn⟩ := Option.isSome_iff_exists.mp hps
      have step : scrapeLine r false l = .ok ({ r with nvr := t, id := nval }, false) := by
        simp only [scrapeLine, Bool.false_eq_true, ite_false, hm, hn]
      obtain ⟨r2, hrun, hne, hid⟩ := ih { r with nvr := t, id := nval } hsw' hfit'
      refine ⟨r2, ?_, ?_, ?_⟩
      · simp only [scrapeLines, step]
        exact hrun
      · intro _
        by_cases hlater : ∃ x ∈ ls, matchBuildLine x ≠ none
        · exact hne hlater
        · have hall : ∀ x ∈ ls, matchBuildLine x = none := by
            intro x hx
            by_contra hc
            exact hlater ⟨x, hx, hc⟩
          rw [hid hall]
          simpa using htne
      · intro hall
        exact absurd hm (by simp [hall l (List.mem_cons_self l ls)])

/-- Claim C7 (amended): a report with no `BUILD:`-matching line fails with
`buildNotFound` provided no line enters the artifact section (no `RPMs:`
line), since an artifact line may fail earlier with its own error; and a
report with no `RPMs:` line, at least one `BUILD:`-matching line, and every
matching line's digit run parsing as `u64` (so the `.expect("parse u64")`
panic is not hit) fails with `artifactSectionMissing`. -/
theorem scrape_missing_sections :
    (∀ output : Str,
      (∀ l ∈ rustLines output, matchBuildLine l = none ∧ startsWithRpms l = false) →
      scrape_koji_cli output = .error .buildNotFound) ∧
    (∀ output : Str,
      (∀ l ∈ rustLines output, startsWithRpms l = false) →
      (∀ l ∈ rustLines output, buildIdFitsB l = true) →
      (∃ l ∈ rustLines output, matchBuildLine l ≠ none) →
      scrape_koji_cli output = .error .artifactSectionMissing) := by
  constructor
  · intro output h
    have hrw := scrapeLines_ignored (rustLines output) kojiDefault h
    unfold scrape_koji_cli
    rw [hrw]
    rfl
  · intro output hsw hfit hex
    obtain ⟨r2, hrun, hne, _⟩ :=
      scrapeLines_no_rpms (rustLines output) kojiDefault hsw hfit
    have hnvr := hne hex
    unfold scrape_koji_cli
    rw [hrun]
    simp only [hnvr, ite_false, eq_self_iff_true, ite_true]

/-- Witness for the amended C7. -/
theorem scrape_missing_sections_witness :
    scrape_koji_cli ("hello\nworld".data) = .error .buildNotFound ∧
      scrape_koji_cli ("BUILD: a-b-c [7]\nother".data) = .error .artifactSectionMissing :=
  ⟨scrape_missing_sections.1 ("hello\nworld".data) (by decide),
   scrape_missing_sections.2 ("BUILD: a-b-c [7]\nother".data) (by decide) (by decide)
     (by decide)⟩

/-! ### Claim C10: the architecture keys stay sorted -/

theorem strLt_irrefl (a : Str) : strLt a a = false := by
  induction a with
  | nil => rfl
  | cons c cs ih => simp [strLt, Nat.lt_irrefl, ih]

theorem strLt_ne (a b : Str) (h : strLt a b = true) : a ≠ b := by
  intro e
  subst e
  rw [strLt_irrefl a] at h
  exact Bool.noConfusion h

theorem strLt_total (a b : Str) : a = b ∨ strLt a b = true ∨ strLt b a = true := by
  induction a generalizing b with
  | nil =>
    cases b with
    | nil => exact Or.inl rfl
    | cons d ds => exact Or.inr (Or.inl rfl)
  | cons c cs ih =>
    cases b with
    | nil => exact Or.inr (Or.inr rfl)
    | cons d ds =>
      rcases Nat.lt_trichotomy c.toNat d.toNat with h | h | h
      · refine Or.inr (Or.inl ?_)
        simp [strLt, h]
      · have hc : c = d := Char.ext (UInt32.ext h)
        subst hc
        rcases ih ds with h2 | h2 | h2
        · exact Or.inl (by rw [h2])
        · refine Or.inr (Or.inl ?_)
          simp [strLt, Nat.lt_irrefl, h2]
        · refine Or.inr (Or.inr ?_)
          simp [strLt, Nat.lt_irrefl, h2]
      · refine Or.inr (Or.inr ?_)
        simp [strLt, h]

theorem strLt_trans (a b c : Str) (h1 : strLt a b = true) (h2 : strLt b c = true) :
    strLt a c = true := by
  induction a generalizing b c with
  | nil =>
    cases c with
    | nil =>
      cases b with
      | nil => simp [strLt] at h2
      | cons y ys => simp [strLt] at h2
    | cons z zs => rfl
  | cons x xs ih =>
    cases b with
    | nil => simp [strLt] at h1
    | cons y ys =>
      cases c with
      | nil => simp [strLt] at h2
      | cons z zs =>
        simp only [strLt] at h1 h2 ⊢
        by_cases hxy : x.toNat < y.toNat
        · by_cases hyz : y.toNat < z.toNat
          · simp [Nat.lt_trans hxy hyz]
          · by_cases hzy : z.toNat < y.toNat
            · simp [hyz, hzy] at h2
            · have hxz : x.toNat < z.toNat := by omega
              simp [hxz]
        · by_cases hyx : y.toNat < x.toNat
          · simp [hxy, hyx] at h1
          · simp only [hxy, hyx, ite_false] at h1
            by_cases hyz : y.toNat < z.toNat
            · have hxz : x.toNat < z.toNat := by omega
              simp [hxz]
            · by_cases hzy : z.toNat < y.toNat
              · simp [hyz, hzy] at h2
              · simp only [hyz, hzy, ite_false] at h2
                have hxz1 : ¬ x.toNat < z.toNat := by omega
                have hxz2 : ¬ z.toNat < x.toNat := by omega
                simp only [hxz1, hxz2, ite_false]
                exact ih ys zs h1 h2

theorem rpmsInsert_head (m : RpmsMap) (a nm : Str) :
    (rpmsKeys (rpmsInsert a nm m)).head? = some a ∨
      (rpmsKeys (rpmsInsert a nm m)).head? = (rpmsKeys m).head? := by
  cases m with
  | nil => exact Or.inl rfl
  | cons kv rest =>
    obtain ⟨k, v⟩ := kv
    unfold rpmsInsert
    by_cases h1 : a = k
    · refine Or.inr ?_
      simp [h1, rpmsKeys]
    · by_cases h2 : strLt a k = true
      · refine Or.inl ?_
        simp [h1, h2, rpmsKeys]
      · refine Or.inr ?_
        simp [h1, h2, rpmsKeys]

theorem rpmsInsert_chain (m : RpmsMap) (a nm : Str)
    (h : List.Chain' (fun x y => strLt x y = true) (rpmsKeys m)) :
    List.Chain' (fun x y => strLt x y = true) (rpmsKeys (rpmsInsert a nm m)) := by
  induction m with
  | nil => simp [rpmsInsert, rpmsKeys]
  | cons kv rest ih =>
    obtain ⟨k, v⟩ := kv
    have hk : rpmsKeys ((k, v) :: rest) = k :: rpmsKeys rest := rfl
    rw [hk, List.chain'_cons'] at h
    obtain ⟨hhd, htl⟩ := h
    unfold rpmsInsert
    by_cases h1 : a = k
    · simp only [h1, ite_true, eq_self_iff_true]
      rw [show rpmsKeys ((k, v ++ [nm]) :: rest) = k :: rpmsKeys rest from rfl]
      exact List.chain'_cons'.mpr ⟨hhd, htl⟩
    · by_cases h2 : strLt a k = true
      · simp only [h1, ite_false, h2, ite_true]
        rw [show rpmsKeys ((a, [nm]) :: (k, v) :: rest) = a :: k :: rpmsKeys rest from rfl]
        refine List.chain'_cons'.mpr ⟨?_, List.chain'_cons'.mpr ⟨hhd, htl⟩⟩
        intro x hx
        simp only [List.head?_cons, Option.mem_def, Option.some.injEq] at hx
        subst hx
        exact h2
      · simp only [h1, ite_false, h2, Bool.false_eq_true]
        rw [show rpmsKeys ((k, v) :: rpmsInsert a nm rest) =
          k :: rpmsKeys (rpmsInsert a nm rest) from rfl]
        refine List.chain'_cons'.mpr ⟨?_, ih htl⟩
        intro x hx
        rcases rpmsInsert_head rest a nm with hh | hh
        · rw [hh] at hx
          simp only [Option.mem_def, Option.some.injEq] at hx
          subst hx
          rcases strLt_total a k with h3 | h3 | h3
          · exact absurd h3 h1
          · exact absurd h3 h2
          · exact h3
        · rw [hh] at hx
          exact hhd x hx

theorem scrapeLine_chain (r : KojiBuildInfo) (b : Bool) (l : Str)
    (r2 : KojiBuildInfo) (b2 : Bool) (h : scrapeLine r b l = .ok (r2, b2))
    (hc : List.Chain' (fun x y => strLt x y = true) (rpmsKeys r.rpms)) :
    List.Chain' (fun x y => strLt x y = true) (rpmsKeys r2.rpms) := by
  unfold scrapeLine at h
  split at h
  · split at h
    · exact absurd h (by simp)
    · split at h
      · exact absurd h (by simp)
      · split at h
        · exact absurd h (by simp)
        · rw [RunResult.ok.injEq, Prod.mk.injEq] at h
          obtain ⟨e1, e2⟩ := h
          subst e1
          exact rpmsInsert_chain r.rpms _ _ hc
  · split at h
    · split at h
      · exact absurd h (by simp)
      · rw [RunResult.ok.injEq, Prod.mk.injEq] at h
        obtain ⟨e1, e2⟩ := h
        subst e1
        exact hc
    · split at h
      · rw [RunResult.ok.injEq, Prod.mk.injEq] at h
        obtain ⟨e1, e2⟩ := h
        subst e1
        exact hc
      · rw [RunResult.ok.injEq, Prod.mk.injEq] at h
        obtain ⟨e1, e2⟩ := h
        subst e1
        exact hc

theorem scrapeLines_chain (ls : List Str) (r : KojiBuildInfo) (b : Bool)
    (r2 : KojiBuildInfo) (b2 : Bool) (h : scrapeLines r b ls = .ok (r2, b2))
    (hc : List.Chain' (fun x y => strLt x y = true) (rpmsKeys r.rpms)) :
    List.Chain' (fun x y => strLt x y = true) (rpmsKeys r2.rpms) := by
  induction ls generalizing r b with
  | nil =>
    simp only [scrapeLines] at h
    rw [RunResult.ok.injEq, Prod.mk.injEq] at h
    obtain ⟨e1, e2⟩ := h
    subst e1
    exact hc
  | cons l ls ih =>
    simp only [scrapeLines] at h
    split at h
    · rename_i rm bm heq
      exact ih rm bm h (scrapeLine_chain r b l rm bm heq hc)
    · exact absurd h (by simp)
    · exact absurd h (by simp)

/-- Claim C10: every successful scrape's architecture keys are in strictly
increasing lexicographic order, whatever order the architectures first
appeared in the report (the map models an ordered tree map, not an
insertion-ordered one). -/
theorem scrape_rpms_keys_sorted :
    ∀ output : Str, ∀ rec : KojiBuildInfo, scrape_koji_cli output = .ok rec →
      List.Chain' (fun x y => strLt x y = true) (rpmsKeys rec.rpms) := by
  intro output rec h
  unfold scrape_koji_cli at h
  split at h
  · exact absurd h (by simp)
  · exact absurd h (by simp)
  · rename_i r0 b0 heq
    split at h
    · exact absurd h (by simp)
    · split at h
      · exact absurd h (by simp)
      · split at h
        · rw [RunResult.ok.injEq] at h
          subst h
          have hbase : List.Chain' (fun x y => strLt x y = true)
              (rpmsKeys (KojiBuildInfo.rpms kojiDefault)) := by
            simp [kojiDefault, rpmsKeys]
          have := scrapeLines_chain (rustLines output) kojiDefault false r0 b0 heq hbase
          simpa using this
        · exact absurd h (by simp)
        · exact absurd h (by simp)

/-- Witness for C10: a report listing `x86_64` before `aarch64` still yields
a key list in sorted order. -/
theorem scrape_rpms_keys_sorted_witness :
    List.Chain' (fun x y => strLt x y = true)
      (rpmsKeys (KojiBuildInfo.rpms
        { nvr := "w-t-n".data, id := 9,
          kojipkgs_url_prefix := "https://kojipkgs.fedoraproject.org/packages/w/t/n".data,
          rpms := [("aarch64".data, ["g2.rpm".data]),
                   ("x86_64".data, ["g1.rpm".data, "g3.rpm".data])] })) :=
  scrape_rpms_keys_sorted
    ("BUILD: w-t-n [9]\nRPMs:\nq/x86_64/g1.rpm\nq/aarch64/g2.rpm\nq/x86_64/g3.rpm".data)
    _ (by decide)

/-! ### Claim C9: the example report -/

theorem chain_lt_all (k : Str) (ks : List Str) (a : Str)
    (hc : List.Chain' (fun x y => strLt x y = true) (k :: ks))
    (ha : strLt a k = true) : ∀ x ∈ ks, strLt a x = true := by
  induction ks generalizing k with
  | nil => simp
  | cons k2 ks ih =>
    rw [List.chain'_cons] at hc
    obtain ⟨h12, hc2⟩ := hc
    intro x hx
    rcases List.mem_cons.mp hx with e | e
    · subst e
      exact strLt_trans a k x ha h12
    · exact ih k2 hc2 (strLt_trans a k k2 ha h12) x e

theorem rpmsLookup_none (m : RpmsMap) (a : Str) (h : ∀ x ∈ rpmsKeys m, a ≠ x) :
    rpmsLookup a m = none := by
  induction m with
  | nil => rfl
  | cons kv rest ih =>
    obtain ⟨k, v⟩ := kv
    unfold rpmsLookup
    rw [if_neg (h k (by simp [rpmsKeys]))]
    exact ih (fun x hx => h x (by simp only [rpmsKeys, List.map_cons]; exact List.mem_cons_of_mem k hx))

theorem rpmsInsert_lookup (m : RpmsMap) (a nm : Str)
    (h : List.Chain' (fun x y => strLt x y = true) (rpmsKeys m)) :
    rpmsLookup a (rpmsInsert a nm m) = some ((rpmsLookup a m).getD [] ++ [nm]) := by
  induction m with
  | nil => simp [rpmsInsert, rpmsLookup]
  | cons kv rest ih =>
    obtain ⟨k, v⟩ := kv
    have hk : rpmsKeys ((k, v) :: rest) = k :: rpmsKeys rest := rfl
    rw [hk, List.chain'_cons'] at h
    obtain ⟨hhd, htl⟩ := h
    unfold rpmsInsert
    by_cases h1 : a = k
    · subst h1
      simp [rpmsLookup]
    · by_cases h2 : strLt a k = true
      · simp only [h1, ite_false, h2, ite_true]
        have hnone : rpmsLookup a rest = none := by
          apply rpmsLookup_none
          intro x hx
          exact strLt_ne a x
            (chain_lt_all k (rpmsKeys rest) a (List.chain'_cons'.mpr ⟨hhd, htl⟩) h2 x hx)
        simp [rpmsLookup, h1, hnone]
      · simp only [h1, ite_false, h2, Bool.false_eq_true]
        simp only [rpmsLookup, h1, ite_false]
        exact ih htl

/-- Claim C9: scraping the (spec-modelled) example report yields
`nvr = "rpm-ostree-2020.10-1.fc34"` and `id = 1657648`, the first `src` entry
and the third `x86_64` entry are the corresponding filenames in report order;
and in general an artifact is appended at the END of its architecture's
sequence, so each sequence lists filenames in exactly the order their lines
appeared. -/
theorem scrape_example_report :
    scrape_koji_cli exampleKojiOutput = .ok exampleKojiRecord ∧
    KojiBuildInfo.nvr exampleKojiRecord = "rpm-ostree-2020.10-1.fc34".data ∧
    KojiBuildInfo.id exampleKojiRecord = 1657648 ∧
    rpmsLookup ("src".data) (KojiBuildInfo.rpms exampleKojiRecord) =
      some ["rpm-ostree-2020.10-1.fc34.src.rpm".data] ∧
    ((rpmsLookup ("x86_64".data) (KojiBuildInfo.rpms exampleKojiRecord)).getD []).get? 2 =
      some ("rpm-ostree-libs-debuginfo-2020.10-1.fc34.x86_64.rpm".data) ∧
    (∀ m : RpmsMap, ∀ a nm : Str,
      List.Chain' (fun x y => strLt x y = true) (rpmsKeys m) →
      rpmsLookup a (rpmsInsert a nm m) = some ((rpmsLookup a m).getD [] ++ [nm])) := by
  refine ⟨by decide, by decide, by decide, by decide, by decide, rpmsInsert_lookup⟩

/-- Witness for C9's append-at-end conjunct. -/
theorem scrape_example_report_witness :
    rpmsLookup ("src".data) (rpmsInsert ("src".data) ("f.rpm".data) []) =
      some ((rpmsLookup ("src".data) []).getD [] ++ ["f.rpm".data]) :=
  scrape_example_report.2.2.2.2.2 [] ("src".data) ("f.rpm".data) (by decide)
